import Mathlib

/-!
Verification development for the smQL browser-side helper library.

The JavaScript sources are shallowly embedded in Lean:
* JS/JSON values become the inductive `JsValue`; JS objects are assignment
  lists of key/value pairs whose lookup is last-wins (matching the semantics
  of object literals and spread, where a later assignment to a key
  overrides an earlier one).
* The `smQL` request client of the final variant (src/unnamed/part_000,
  throwing contract), the wrapped-contract client (src/smQL.js `#request`)
  and the semantqQL.js variant are each embedded as pure functions from the
  call arguments and a fetch-outcome oracle to their result.
* The platform fetch response is a record carrying status, ok flag,
  content-type header, the raw body text (what `response.text()` yields) and
  the result of `JSON.parse` on it (what `response.json()` yields, `none`
  modelling a SyntaxError).  The one-shot nature of the body stream is
  modelled by a `disturbed` flag threaded through the read operations:
  per the fetch standard, a second read of a consumed body rejects with a
  TypeError (`bodyAlreadyRead` below).
* The `Form` capture algorithm becomes a fold over the FormData entry list
  followed by a fold over the multi-select contributions.
-/

/-- A JavaScript/JSON value as used by the library: null, booleans, numbers
(integers suffice for the claims), strings, arrays and objects.  Objects are
assignment lists: a later pair with the same key overrides an earlier one. -/
inductive JsValue where
  | vNull : JsValue
  | vBool : Bool → JsValue
  | vNum : Int → JsValue
  | vStr : String → JsValue
  | vArr : List JsValue → JsValue
  | vObj : List (String × JsValue) → JsValue

mutual

/-- Decidable equality on embedded JS values. -/
def jsDecEq : (a b : JsValue) → Decidable (a = b)
  | .vNull, .vNull => isTrue rfl
  | .vBool a, .vBool b =>
    match decEq a b with
    | isTrue h => isTrue (by rw [h])
    | isFalse h => isFalse (fun hh => h (by cases hh; rfl))
  | .vNum a, .vNum b =>
    match decEq a b with
    | isTrue h => isTrue (by rw [h])
    | isFalse h => isFalse (fun hh => h (by cases hh; rfl))
  | .vStr a, .vStr b =>
    match decEq a b with
    | isTrue h => isTrue (by rw [h])
    | isFalse h => isFalse (fun hh => h (by cases hh; rfl))
  | .vArr a, .vArr b =>
    match jsDecEqList a b with
    | isTrue h => isTrue (by rw [h])
    | isFalse h => isFalse (fun hh => h (by cases hh; rfl))
  | .vObj a, .vObj b =>
    match jsDecEqFields a b with
    | isTrue h => isTrue (by rw [h])
    | isFalse h => isFalse (fun hh => h (by cases hh; rfl))
  | .vNull, .vBool _ => isFalse (fun h => JsValue.noConfusion h)
  | .vNull, .vNum _ => isFalse (fun h => JsValue.noConfusion h)
  | .vNull, .vStr _ => isFalse (fun h => JsValue.noConfusion h)
  | .vNull, .vArr _ => isFalse (fun h => JsValue.noConfusion h)
  | .vNull, .vObj _ => isFalse (fun h => JsValue.noConfusion h)
  | .vBool _, .vNull => isFalse (fun h => JsValue.noConfusion h)
  | .vBool _, .vNum _ => isFalse (fun h => JsValue.noConfusion h)
  | .vBool _, .vStr _ => isFalse (fun h => JsValue.noConfusion h)
  | .vBool _, .vArr _ => isFalse (fun h => JsValue.noConfusion h)
  | .vBool _, .vObj _ => isFalse (fun h => JsValue.noConfusion h)
  | .vNum _, .vNull => isFalse (fun h => JsValue.noConfusion h)
  | .vNum _, .vBool _ => isFalse (fun h => JsValue.noConfusion h)
  | .vNum _, .vStr _ => isFalse (fun h => JsValue.noConfusion h)
  | .vNum _, .vArr _ => isFalse (fun h => JsValue.noConfusion h)
  | .vNum _, .vObj _ => isFalse (fun h => JsValue.noConfusion h)
  | .vStr _, .vNull => isFalse (fun h => JsValue.noConfusion h)
  | .vStr _, .vBool _ => isFalse (fun h => JsValue.noConfusion h)
  | .vStr _, .vNum _ => isFalse (fun h => JsValue.noConfusion h)
  | .vStr _, .vArr _ => isFalse (fun h => JsValue.noConfusion h)
  | .vStr _, .vObj _ => isFalse (fun h => JsValue.noConfusion h)
  | .vArr _, .vNull => isFalse (fun h => JsValue.noConfusion h)
  | .vArr _, .vBool _ => isFalse (fun h => JsValue.noConfusion h)
  | .vArr _, .vNum _ => isFalse (fun h => JsValue.noConfusion h)
  | .vArr _, .vStr _ => isFalse (fun h => JsValue.noConfusion h)
  | .vArr _, .vObj _ => isFalse (fun h => JsValue.noConfusion h)
  | .vObj _, .vNull => isFalse (fun h => JsValue.noConfusion h)
  | .vObj _, .vBool _ => isFalse (fun h => JsValue.noConfusion h)
  | .vObj _, .vNum _ => isFalse (fun h => JsValue.noConfusion h)
  | .vObj _, .vStr _ => isFalse (fun h => JsValue.noConfusion h)
  | .vObj _, .vArr _ => isFalse (fun h => JsValue.noConfusion h)

/-- Decidable equality on lists of embedded JS values. -/
def jsDecEqList : (xs ys : List JsValue) → Decidable (xs = ys)
  | [], [] => isTrue rfl
  | [], _ :: _ => isFalse (fun h => List.noConfusion h)
  | _ :: _, [] => isFalse (fun h => List.noConfusion h)
  | x :: xs, y :: ys =>
    match jsDecEq x y, jsDecEqList xs ys with
    | isTrue h1, isTrue h2 => isTrue (by rw [h1, h2])
    | isFalse h1, _ => isFalse (fun h => h1 (by cases h; rfl))
    | _, isFalse h2 => isFalse (fun h => h2 (by cases h; rfl))

/-- Decidable equality on field lists of embedded JS objects. -/
def jsDecEqFields : (xs ys : List (String × JsValue)) → Decidable (xs = ys)
  | [], [] => isTrue rfl
  | [], _ :: _ => isFalse (fun h => List.noConfusion h)
  | _ :: _, [] => isFalse (fun h => List.noConfusion h)
  | (k1, v1) :: xs, (k2, v2) :: ys =>
    match decEq k1 k2, jsDecEq v1 v2, jsDecEqFields xs ys with
    | isTrue h0, isTrue h1, isTrue h2 => isTrue (by rw [h0, h1, h2])
    | isFalse h0, _, _ => isFalse (fun h => h0 (by cases h; rfl))
    | _, isFalse h1, _ => isFalse (fun h => h1 (by cases h; rfl))
    | _, _, isFalse h2 => isFalse (fun h => h2 (by cases h; rfl))

end

instance : DecidableEq JsValue := jsDecEq

/-- JS truthiness of a value: null, false, 0 and the empty string are falsy;
arrays and objects are always truthy. -/
def truthy : JsValue → Bool
  | .vNull => false
  | .vBool b => b
  | .vNum n => n != 0
  | .vStr s => s != ""
  | .vArr _ => true
  | .vObj _ => true

/-- Minimal JSON string escaping (quote and backslash), modelling the
platform JSON.stringify escaping for the characters the claims exercise. -/
def jsEscape (s : String) : String :=
  String.join (s.toList.map fun c =>
    if c = '"' then "\\\"" else if c = '\\' then "\\\\" else String.singleton c)

/-- A JSON-quoted string. -/
def quoteStr (s : String) : String := "\"" ++ jsEscape s ++ "\""

mutual

/-- Model of the platform JSON.stringify on embedded values. -/
def jsonStringify : JsValue → String
  | .vNull => "null"
  | .vBool b => if b then "true" else "false"
  | .vNum n => toString n
  | .vStr s => quoteStr s
  | .vArr xs => "[" ++ String.intercalate "," (stringifyList xs) ++ "]"
  | .vObj fs => "\x7b" ++ String.intercalate "," (stringifyFields fs) ++ "\x7d"

/-- JSON.stringify of the elements of an array. -/
def stringifyList : List JsValue → List String
  | [] => []
  | v :: vs => jsonStringify v :: stringifyList vs

/-- JSON.stringify of the fields of an object. -/
def stringifyFields : List (String × JsValue) → List String
  | [] => []
  | f :: fs => (quoteStr f.1 ++ ":" ++ jsonStringify f.2) :: stringifyFields fs

end

/-- Lookup in an assignment list, last-wins: the value of the latest
assignment to the key, as in a JS object built by a sequence of
assignments/spreads. -/
def alookup {α : Type} : List (String × α) → String → Option α
  | [], _ => none
  | p :: rest, k =>
    match alookup rest k with
    | some v => some v
    | none => if p.1 == k then some p.2 else none

/-- JS property assignment `obj[k] = v` on an assignment list: update the
existing entry in place when the key is present, else append a new entry. -/
def hset {α : Type} (h : List (String × α)) (k : String) (v : α) : List (String × α) :=
  if h.any (fun p => p.1 == k) then
    h.map (fun p => if p.1 == k then (k, v) else p)
  else
    h ++ [(k, v)]

/-- JS object spread-merge: start from `a` and assign every entry of `b` in
order, so entries of `b` override same-named entries of `a` (later wins). -/
def hmerge {α : Type} (a b : List (String × α)) : List (String × α) :=
  b.foldl (fun acc p => hset acc p.1 p.2) a

/-- Number of entries with the given key. -/
def countKey {α : Type} (h : List (String × α)) (k : String) : Nat :=
  (h.filter (fun p => p.1 == k)).length

/-- Keys of an assignment list are pairwise distinct (true of every list
that denotes an actual JS object). -/
def keysNodup {α : Type} (h : List (String × α)) : Prop :=
  (h.map Prod.fst).Nodup

/-- Model of JS object spread `{...v}` of an arbitrary value: objects
contribute their fields, strings contribute their indexed characters
(strings have index own-properties), arrays their indexed elements, and
null/booleans/numbers contribute nothing. -/
def jsSpread : JsValue → List (String × JsValue)
  | .vObj fs => fs
  | .vStr s => s.toList.enum.map fun p => (toString p.1, JsValue.vStr (String.singleton p.2))
  | .vArr xs => xs.enum.map fun p => (toString p.1, p.2)
  | _ => []

/-- Errors a request can reject with.  `parseError` is the SyntaxError thrown
by JSON.parse inside `response.json()`; `readError` a failure reading the
body stream; `bodyAlreadyRead` the TypeError the platform raises when a
consumed body is read again; `decodeError` the diagnostic
`Error("Failed to parse response: " ++ raw)` built in the catch block of
src/unnamed/part_000; `networkError` a rejection of `fetch` itself. -/
inductive ReqError where
  | networkError : String → ReqError
  | parseError : String → ReqError
  | readError : ReqError
  | bodyAlreadyRead : ReqError
  | decodeError : String → ReqError
deriving DecidableEq

/-- A transport response as the platform hands it to the client:
status, ok flag, the `content-type` header (`none` when absent), the raw
body text (what a successful `response.text()` yields), the platform
JSON.parse of that text (what a successful `response.json()` yields, `none`
modelling a SyntaxError), and whether the body stream is readable at all
(`false` models a network failure while streaming the body). -/
structure FetchResponse where
  status : Int
  ok : Bool
  contentType : Option String
  bodyText : String
  bodyJson : Option JsValue
  readable : Bool
deriving DecidableEq

/-- `response.text()`: consumes the body.  The Bool argument and result
thread the platform's "disturbed" flag: a second read rejects with a
TypeError (`bodyAlreadyRead`). -/
def respText (r : FetchResponse) (disturbed : Bool) : Except ReqError String × Bool :=
  if disturbed then (.error .bodyAlreadyRead, true)
  else if r.readable then (.ok r.bodyText, true)
  else (.error .readError, true)

/-- `response.json()`: reads the body text, then JSON.parse; a parse failure
is a SyntaxError but the body is consumed either way. -/
def respJson (r : FetchResponse) (disturbed : Bool) : Except ReqError JsValue × Bool :=
  match respText r disturbed with
  | (.ok raw, d2) =>
    match r.bodyJson with
    | some v => (.ok v, d2)
    | none => (.error (.parseError raw), d2)
  | (.error e, d2) => (.error e, d2)

/-- Whether the first character list is a prefix of the second. -/
def isPrefixChars : List Char → List Char → Bool
  | [], _ => true
  | _ :: _, [] => false
  | a :: as2, b :: bs => a == b && isPrefixChars as2 bs

/-- Whether `sub` occurs as a contiguous run inside the character list,
modelling `String.prototype.includes`. -/
def containsSub (sub : List Char) : List Char → Bool
  | [] => sub.isEmpty
  | c :: rest => isPrefixChars sub (c :: rest) || containsSub sub rest

/-- The condition `contentType && contentType.includes('application/json')`
of the decode step: a null or empty header is falsy, otherwise substring
containment decides JSON vs text decoding. -/
def ctIncludesJson : Option String → Bool
  | none => false
  | some s => containsSub "application/json".data s.data

/-- The decode expression of src/unnamed/part_000 lines 44-47: read the body
as JSON when the content type includes `application/json`, as text
otherwise, with the resulting disturbed flag. -/
def decodeFirst (r : FetchResponse) : Except ReqError JsValue × Bool :=
  if ctIncludesJson r.contentType then respJson r false
  else
    match respText r false with
    | (.ok s, d) => (Except.ok (JsValue.vStr s), d)
    | (.error e, d) => (Except.error e, d)

/-- The decode step of src/unnamed/part_000 lines 42-52: on failure the
catch block reads the raw text again to build the diagnostic `decodeError` —
but by then the body stream is already consumed, so that second read itself
fails and its error propagates instead. -/
def decodeBody (r : FetchResponse) : Except ReqError JsValue :=
  match decodeFirst r with
  | (.ok v, _) => .ok v
  | (.error _, d2) =>
    match respText r d2 with
    | (.ok raw, _) => .error (.decodeError raw)
    | (.error e2, _) => .error e2

/-- The state of an `smQL` instance of src/unnamed/part_000: base URL,
default headers (the built-in Content-Type merged with the constructor
argument), the mutable bearer token, and the log option. -/
structure ClientState where
  baseURL : String
  defaultHeaders : List (String × String)
  token : Option String
  logFlag : Bool

/-- The built-in default headers of the constructor. -/
def builtinHeaders : List (String × String) := [("Content-Type", "application/json")]

/-- The constructor `new smQL(baseURL, defaultHeaders, options)`:
`this.defaultHeaders = {'Content-Type': 'application/json', ...defaultHeaders}`,
no token yet, `log: options.log ?? true`. -/
def mkClient (baseURL : String) (defaultHeaders : List (String × String))
    (logOpt : Option Bool) : ClientState :=
  { baseURL := baseURL
    defaultHeaders := hmerge builtinHeaders defaultHeaders
    token := none
    logFlag := logOpt.getD true }

/-- `setToken(token)`: store the token (`none` models null). -/
def setToken (c : ClientState) (t : Option String) : ClientState := { c with token := t }

/-- JS truthiness of the stored token: null and the empty string are falsy. -/
def tokenTruthy : Option String → Bool
  | none => false
  | some s => s != ""

/-- The argument record handed to `fetch`. -/
structure TransportCall where
  url : String
  method : String
  headers : List (String × String)
  body : Option JsValue
deriving DecidableEq

/-- Lines 19-37 of src/unnamed/part_000: merge default and per-call headers
(later wins), then assign the Authorization header when the token is truthy,
then attach the body when it is truthy and the method is neither GET nor
HEAD — JSON-serialized when the effective Content-Type is exactly
`application/json`, otherwise passed through unmodified. -/
def buildCall (c : ClientState) (endpoint method : String) (body : JsValue)
    (headers : List (String × String)) : TransportCall :=
  let fh0 := hmerge c.defaultHeaders headers
  let fh := if tokenTruthy c.token then hset fh0 "Authorization" ("Bearer " ++ c.token.getD "")
            else fh0
  let ob := if truthy body && method != "GET" && method != "HEAD" then
              (if alookup fh "Content-Type" == some "application/json"
               then some (JsValue.vStr (jsonStringify body))
               else some body)
            else none
  { url := c.baseURL ++ endpoint, method := method, headers := fh, body := ob }

/-- Lines 54-66 of src/unnamed/part_000 after a successful fetch: decode the
body, then return `{_status: response.status, _ok: response.ok, ...data}`;
a decode failure propagates (rethrown by the outer catch). -/
def handleResponse (r : FetchResponse) : Except ReqError JsValue :=
  match decodeBody r with
  | .error e => .error e
  | .ok data =>
    .ok (.vObj (("_status", JsValue.vNum r.status) :: ("_ok", JsValue.vBool r.ok)
          :: jsSpread data))

/-- Outcome of the platform `fetch` call: a response, or a rejection of the
fetch promise itself (network failure). -/
inductive FetchOutcome where
  | success : FetchResponse → FetchOutcome
  | networkFailure : String → FetchOutcome

/-- `smQL.request` of src/unnamed/part_000 (throwing contract), as a function
of the call arguments and a fetch oracle: build the transport call, run
fetch, then shape or propagate.  The outer catch only logs and rethrows, so
errors pass through unchanged. -/
def request (c : ClientState) (endpoint method : String) (body : JsValue)
    (headers : List (String × String)) (fetchFn : TransportCall → FetchOutcome) :
    Except ReqError JsValue :=
  match fetchFn (buildCall c endpoint method body headers) with
  | .networkFailure msg => .error (.networkError msg)
  | .success r => handleResponse r

/-- The field of name `k` in a successfully returned object result, `none`
when the request failed or the result is not an object. -/
def resultField (res : Except ReqError JsValue) (k : String) : Option JsValue :=
  match res with
  | .ok (.vObj fs) => alookup fs k
  | _ => none

/-- Model of `String.prototype.toUpperCase` as applied to HTTP verb names
(ASCII). -/
def jsToUpper (s : String) : String := String.mk (s.data.map Char.toUpper)

/-- The caller-supplied options object of the wrapped-contract client
(src/smQL.js) and of semantqQL.js, restricted to the keys that can reach the
transport config.  `headersOpt` is `options.headers`; `methodSpread` and
`bodySpread` model `options.method` / `options.body`, which the unrestricted
`...this.options` spread copies into the config after method and headers are
set (the configuration hazard of spec section 9).  The four library keys
log/formId/successMessage/errorMessage are deleted from the config before
fetch and never reach the transport, so they are not modelled here. -/
structure WOptions where
  headersOpt : Option (List (String × String)) := none
  methodSpread : Option String := none
  bodySpread : Option JsValue := none

/-- The config record handed to `fetch(endpoint, config)` by the wrapped and
semantqQL variants. -/
structure FetchConfig where
  method : String
  headers : List (String × String)
  body : Option JsValue
deriving DecidableEq

/-- Lines 24-42 of src/smQL.js `#request`: build
`{method: method.toUpperCase(), headers: {Content-Type, ...options.headers},
...this.options}` (the spread overriding method and headers when the options
object carries those keys), then set `config.body = JSON.stringify(body)`
when `config.method` is POST/PUT/PATCH and the body is truthy. -/
def buildWConfig (method : String) (body : JsValue) (opts : WOptions) : FetchConfig :=
  let m0 := jsToUpper method
  let h0 := hmerge [("Content-Type", "application/json")] (opts.headersOpt.getD [])
  let m1 := opts.methodSpread.getD m0
  let h1 := match opts.headersOpt with
            | some hh => hh
            | none => h0
  let b1 := opts.bodySpread
  let b2 := if (m1 == "POST" || m1 == "PUT" || m1 == "PATCH") && truthy body then
              some (JsValue.vStr (jsonStringify body))
            else b1
  { method := m1, headers := h1, body := b2 }

/-- Lines 15-35 of src/semantqQL.js: same config construction, except the
body guard tests `this.method` (the upper-cased constructor argument, not
the possibly spread-overridden `config.method`) and has no truthiness check
on the body: POST/PUT/PATCH always get `JSON.stringify(this.body)`, even
when the body is null. -/
def semantqConfig (method : String) (body : JsValue) (opts : WOptions) : FetchConfig :=
  let m0 := jsToUpper method
  let h0 := hmerge [("Content-Type", "application/json")] (opts.headersOpt.getD [])
  let m1 := opts.methodSpread.getD m0
  let h1 := match opts.headersOpt with
            | some hh => hh
            | none => h0
  let b1 := opts.bodySpread
  let b2 := if m0 == "POST" || m0 == "PUT" || m0 == "PATCH" then
              some (JsValue.vStr (jsonStringify body))
            else b1
  { method := m1, headers := h1, body := b2 }

/-- The wrapped result record `{status, ok, data, error}`; `error := none`
models the absence of the `error` property. -/
structure WrappedResult where
  status : Int
  ok : Bool
  data : Option JsValue
  error : Option String
deriving DecidableEq

/-- The decode step of src/smQL.js lines 46-49: one read, no inner catch —
a JSON parse failure propagates to the outer catch. -/
def decodeW (r : FetchResponse) : Except ReqError JsValue :=
  if ctIncludesJson r.contentType then (respJson r false).1
  else
    match (respText r false).1 with
    | .ok s => .ok (.vStr s)
    | .error e => .error e

/-- The `error.message` string of each rejection, modelling the platform
message text (its exact wording is platform-defined). -/
def errMessage : ReqError → String
  | .networkError m => m
  | .parseError _ => "Unexpected token in JSON"
  | .readError => "body read failed"
  | .bodyAlreadyRead => "body stream already read"
  | .decodeError raw => "Failed to parse response: " ++ raw

/-- The try block of src/smQL.js `#request` (lines 23-75): build the config,
fetch, decode, and return `{status, ok, data}` (no error property).  Any
rejection inside the block is the Except error. -/
def wrappedTry (method : String) (body : JsValue) (opts : WOptions)
    (fetchFn : FetchConfig → FetchOutcome) : Except ReqError WrappedResult :=
  match fetchFn (buildWConfig method body opts) with
  | .networkFailure msg => .error (.networkError msg)
  | .success r =>
    match decodeW r with
    | .error e => .error e
    | .ok d => .ok { status := r.status, ok := r.ok, data := some d, error := none }

/-- `#request` of src/smQL.js (wrapped contract): the catch block converts
every rejection into `{status: 0, ok: false, data: null, error: message}`,
so the method always returns a result. -/
def wrappedRequest (method : String) (body : JsValue) (opts : WOptions)
    (fetchFn : FetchConfig → FetchOutcome) : WrappedResult :=
  match wrappedTry method body opts fetchFn with
  | .ok res => res
  | .error e => { status := 0, ok := false, data := none, error := some (errMessage e) }

/-- A captured form-field value: a bare string or an ordered sequence of
strings. -/
inductive FieldValue where
  | scalar : String → FieldValue
  | seq : List String → FieldValue
deriving DecidableEq

/-- One step of the FormData entry walk (src/unnamed/part_000 lines 135-146):
first occurrence of a name stores the scalar, a second promotes it to a
two-element array, further ones append. -/
def addEntry (data : List (String × FieldValue)) (nv : String × String) :
    List (String × FieldValue) :=
  match alookup data nv.1 with
  | none => data ++ [(nv.1, FieldValue.scalar nv.2)]
  | some (.scalar v0) => hset data nv.1 (FieldValue.seq [v0, nv.2])
  | some (.seq xs) => hset data nv.1 (FieldValue.seq (xs ++ [nv.2]))

/-- One step of the multi-select pass (lines 149-157): a select without a
name contributes nothing; with selected options, exactly one selected value
is stored as a scalar and two or more as the ordered list, overwriting the
entry-walk value; with zero selected nothing is stored. -/
def selStep (data : List (String × FieldValue)) (sel : String × List String) :
    List (String × FieldValue) :=
  if sel.1 == "" then data
  else if 0 < sel.2.length then
    hset data sel.1
      (if sel.2.length == 1 then FieldValue.scalar (sel.2.getD 0 "") else FieldValue.seq sel.2)
  else data

/-- `Form.#captureFormData`: fold the FormData entries (name/value pairs in
encounter order), then fold the multi-selects (name and currently selected
option values, in DOM order). -/
def captureFormData (entries : List (String × String))
    (selects : List (String × List String)) : List (String × FieldValue) :=
  selects.foldl selStep (entries.foldl addEntry [])

/-- The ordered values the FormData entry list holds under a given name. -/
def valsOf (entries : List (String × String)) (name : String) : List String :=
  (entries.filter (fun e => e.1 == name)).map Prod.snd

/-- Effect of one more entry on the value stored under its name. -/
def entryStep : Option FieldValue → String → FieldValue
  | none, v => .scalar v
  | some (.scalar v0), v => .seq [v0, v]
  | some (.seq xs), v => .seq (xs ++ [v])

/-- Effect of a run of entries on the value stored under a fixed name. -/
def combine : Option FieldValue → List String → Option FieldValue
  | o, [] => o
  | o, v :: vs => combine (some (entryStep o v)) vs

/-- The value the entry walk produces for a name from its ordered values:
absent for none, a scalar for exactly one, the ordered sequence for two or
more. -/
def shape : List String → Option FieldValue
  | [] => none
  | [v] => some (.scalar v)
  | vs => some (.seq vs)

/-- The selected-option list of the last multi-select that has the given
(non-empty) name and at least one selected option, if any. -/
def lastSel : List (String × List String) → String → Option (List String)
  | [], _ => none
  | s :: rest, name =>
    match lastSel rest name with
    | some vs => some vs
    | none => if s.1 == name && decide (0 < s.2.length) then some s.2 else none

/-- The value a multi-select stores for its name: a scalar when exactly one
option is selected, the ordered list when two or more are. -/
def shaped (vs : List String) : Option FieldValue :=
  some (if vs.length == 1 then FieldValue.scalar (vs.getD 0 "") else FieldValue.seq vs)


instance {ε α : Type} [DecidableEq ε] [DecidableEq α] : DecidableEq (Except ε α) := fun a b =>
  match a, b with
  | .ok x, .ok y =>
    match decEq x y with
    | isTrue h => isTrue (by rw [h])
    | isFalse h => isFalse (fun hh => h (by cases hh; rfl))
  | .error e, .error f =>
    match decEq e f with
    | isTrue h => isTrue (by rw [h])
    | isFalse h => isFalse (fun hh => h (by cases hh; rfl))
  | .ok _, .error _ => isFalse (fun h => Except.noConfusion h)
  | .error _, .ok _ => isFalse (fun h => Except.noConfusion h)

/-- The final headers of a request of src/unnamed/part_000: the instance
defaults merged with the per-call headers (later wins), then the
Authorization assignment when the token is truthy. -/
def finalHeadersOf (c : ClientState) (headers : List (String × String)) :
    List (String × String) :=
  let fh0 := hmerge c.defaultHeaders headers
  if tokenTruthy c.token then hset fh0 "Authorization" ("Bearer " ++ c.token.getD "")
  else fh0

/-- The later-wins cascade for one header name over the three sources:
per-call argument first, then the instance defaults, then the built-in
default. -/
def mergeSpec (u ch : List (String × String)) (name : String) : Option String :=
  match alookup ch name with
  | some v => some v
  | none =>
    match alookup u name with
    | some v => some v
    | none => alookup builtinHeaders name

/-- True when a result resolved rather than rejected. -/
def resolves {ε α : Type} : Except ε α → Bool
  | .ok _ => true
  | .error _ => false

/-- A 404 response with the JSON body of the spec scenario. -/
def respNotFound : FetchResponse :=
  { status := 404, ok := false, contentType := some "application/json",
    bodyText := "\x7b\"message\":\"not found\"\x7d",
    bodyJson := some (.vObj [("message", JsValue.vStr "not found")]), readable := true }

/-- A response advertising JSON whose body text fails JSON.parse. -/
def respMalformed : FetchResponse :=
  { status := 200, ok := true, contentType := some "application/json",
    bodyText := "\x7boops", bodyJson := none, readable := true }

/-- A plain-text response with body "plain text". -/
def respPlainText : FetchResponse :=
  { status := 200, ok := true, contentType := some "text/plain",
    bodyText := "plain text", bodyJson := none, readable := true }

/-- A 200 JSON response whose body itself carries a top-level _status key. -/
def respStatusClash : FetchResponse :=
  { status := 200, ok := true, contentType := some "application/json",
    bodyText := "\x7b\"_status\":999\x7d",
    bodyJson := some (.vObj [("_status", JsValue.vNum 999)]), readable := true }

/-- A 200 JSON response whose body carries both reserved keys, with values
differing from the transport-level ones. -/
def respBothClash : FetchResponse :=
  { status := 200, ok := true, contentType := some "application/json",
    bodyText := "\x7b\"_status\":999,\"_ok\":false\x7d",
    bodyJson := some (.vObj [("_status", JsValue.vNum 999), ("_ok", JsValue.vBool false)]),
    readable := true }


theorem alookup_cons_of_some {α : Type} {rest : List (String × α)} {k : String} {v : α}
    (p : String × α) (hr : alookup rest k = some v) : alookup (p :: rest) k = some v := by
  simp only [alookup, hr]

theorem alookup_cons_of_none {α : Type} {rest : List (String × α)} {k : String}
    (p : String × α) (hr : alookup rest k = none) :
    alookup (p :: rest) k = if p.1 == k then some p.2 else none := by
  simp only [alookup, hr]

theorem alookup_append_of_some {α : Type} {b : List (String × α)} {k : String} {v : α}
    (a : List (String × α)) (hb : alookup b k = some v) : alookup (a ++ b) k = some v := by
  induction a with
  | nil => simpa using hb
  | cons p rest ih =>
    rw [List.cons_append]
    exact alookup_cons_of_some p ih

theorem alookup_append_of_none {α : Type} {b : List (String × α)} {k : String}
    (a : List (String × α)) (hb : alookup b k = none) :
    alookup (a ++ b) k = alookup a k := by
  induction a with
  | nil => simpa using hb
  | cons p rest ih =>
    rw [List.cons_append]
    cases hr : alookup rest k with
    | some w => rw [alookup_cons_of_some p (ih.trans hr), alookup_cons_of_some p hr]
    | none => rw [alookup_cons_of_none p (ih.trans hr), alookup_cons_of_none p hr]

theorem alookup_eq_none_of_not_any {α : Type} {h : List (String × α)} {k : String}
    (hna : h.any (fun p => p.1 == k) = false) : alookup h k = none := by
  induction h with
  | nil => rfl
  | cons p rest ih =>
    simp only [List.any_cons, Bool.or_eq_false_iff] at hna
    rw [alookup_cons_of_none p (ih hna.2)]
    exact if_neg (by rw [hna.1]; exact Bool.false_ne_true)

theorem map_update_of_not_any {α : Type} {h : List (String × α)} {k : String} {v : α}
    (hna : h.any (fun p => p.1 == k) = false) :
    h.map (fun p => if p.1 == k then (k, v) else p) = h := by
  induction h with
  | nil => rfl
  | cons p rest ih =>
    simp only [List.any_cons, Bool.or_eq_false_iff] at hna
    simp only [List.map_cons]
    rw [if_neg (by rw [hna.1]; exact Bool.false_ne_true), ih hna.2]

theorem alookup_map_update_self {α : Type} {h : List (String × α)} {k : String} {v : α}
    (hany : h.any (fun p => p.1 == k) = true) :
    alookup (h.map (fun p => if p.1 == k then (k, v) else p)) k = some v := by
  induction h with
  | nil => simp at hany
  | cons p rest ih =>
    simp only [List.map_cons]
    cases hrest : rest.any (fun p => p.1 == k) with
    | true => exact alookup_cons_of_some _ (ih hrest)
    | false =>
      have hnone : alookup (rest.map (fun p => if p.1 == k then (k, v) else p)) k = none := by
        rw [map_update_of_not_any hrest]
        exact alookup_eq_none_of_not_any hrest
      rw [alookup_cons_of_none _ hnone]
      have hp : (p.1 == k) = true := by
        have hor : (p.1 == k) = true ∨ rest.any (fun p => p.1 == k) = true := by
          simpa using hany
        rcases hor with h1 | h1
        · exact h1
        · rw [h1] at hrest; exact absurd hrest (by simp)
      rw [if_pos hp]
      simp

theorem alookup_map_update_ne {α : Type} (h : List (String × α)) {k k2 : String} (v : α)
    (hne : k2 ≠ k) :
    alookup (h.map (fun p => if p.1 == k then (k, v) else p)) k2 = alookup h k2 := by
  induction h with
  | nil => rfl
  | cons p rest ih =>
    simp only [List.map_cons]
    cases hr : alookup rest k2 with
    | some w =>
      rw [alookup_cons_of_some _ (ih.trans hr), alookup_cons_of_some p hr]
    | none =>
      rw [alookup_cons_of_none _ (ih.trans hr), alookup_cons_of_none p hr]
      cases hpk : (p.1 == k) with
      | false => simp
      | true =>
        have hp1 : p.1 = k := by simpa using hpk
        simp [hp1, Ne.symm hne]

theorem alookup_hset_self {α : Type} (h : List (String × α)) (k : String) (v : α) :
    alookup (hset h k v) k = some v := by
  unfold hset
  cases hany : h.any (fun p => p.1 == k) with
  | true =>
    rw [if_pos rfl]
    exact alookup_map_update_self hany
  | false =>
    rw [if_neg Bool.false_ne_true]
    exact alookup_append_of_some h (by simp [alookup])

theorem alookup_hset_ne {α : Type} (h : List (String × α)) {k k2 : String} (v : α)
    (hne : k2 ≠ k) : alookup (hset h k v) k2 = alookup h k2 := by
  unfold hset
  cases hany : h.any (fun p => p.1 == k) with
  | true =>
    rw [if_pos rfl]
    exact alookup_map_update_ne h v hne
  | false =>
    rw [if_neg Bool.false_ne_true]
    have hone : alookup [(k, v)] k2 = none := by
      simp [alookup, Ne.symm hne]
    exact alookup_append_of_none h hone

theorem alookup_foldl_hset_of_none {α : Type} {b : List (String × α)} {k : String} :
    ∀ a : List (String × α), alookup b k = none →
      alookup (b.foldl (fun acc p => hset acc p.1 p.2) a) k = alookup a k := by
  induction b with
  | nil => intro a _; rfl
  | cons p rest ih =>
    intro a hb
    rw [List.foldl_cons]
    cases hr : alookup rest k with
    | some w =>
      rw [alookup_cons_of_some p hr] at hb
      exact absurd hb (by simp)
    | none =>
      rw [ih _ hr]
      rw [alookup_cons_of_none p hr] at hb
      cases hpk : (p.1 == k) with
      | true => rw [if_pos hpk] at hb; exact absurd hb (by simp)
      | false =>
        have hne : k ≠ p.1 := by
          intro he
          rw [← he] at hpk
          simp at hpk
        exact alookup_hset_ne a p.2 hne

theorem alookup_foldl_hset_of_some {α : Type} {b : List (String × α)} {k : String} {v : α} :
    ∀ a : List (String × α), alookup b k = some v →
      alookup (b.foldl (fun acc p => hset acc p.1 p.2) a) k = some v := by
  induction b with
  | nil => intro a hb; exact absurd hb (by simp [alookup])
  | cons p rest ih =>
    intro a hb
    rw [List.foldl_cons]
    cases hr : alookup rest k with
    | some w =>
      rw [alookup_cons_of_some p hr] at hb
      injection hb with hb2
      rw [hb2] at hr
      exact ih _ hr
    | none =>
      rw [alookup_cons_of_none p hr] at hb
      cases hpk : (p.1 == k) with
      | false =>
        rw [if_neg (by rw [hpk]; exact Bool.false_ne_true)] at hb
        exact absurd hb (by simp)
      | true =>
        rw [if_pos hpk] at hb
        injection hb with hb2
        have hp1 : p.1 = k := by simpa using hpk
        rw [alookup_foldl_hset_of_none _ hr, hp1, alookup_hset_self, hb2]

theorem alookup_hmerge_of_some {α : Type} {b : List (String × α)} {k : String} {v : α}
    (a : List (String × α)) (hb : alookup b k = some v) :
    alookup (hmerge a b) k = some v :=
  alookup_foldl_hset_of_some a hb

theorem alookup_hmerge_of_none {α : Type} {b : List (String × α)} {k : String}
    (a : List (String × α)) (hb : alookup b k = none) :
    alookup (hmerge a b) k = alookup a k :=
  alookup_foldl_hset_of_none a hb

theorem keys_map_update {α : Type} (h : List (String × α)) (k : String) (v : α) :
    (h.map (fun p => if p.1 == k then (k, v) else p)).map Prod.fst = h.map Prod.fst := by
  induction h with
  | nil => rfl
  | cons p rest ih =>
    simp only [List.map_cons, ih]
    cases hpk : (p.1 == k) with
    | true =>
      have hp1 : p.1 = k := by simpa using hpk
      simp [hp1]
    | false => simp

theorem keysNodup_hset {α : Type} {h : List (String × α)} (k : String) (v : α)
    (hn : keysNodup h) : keysNodup (hset h k v) := by
  unfold hset
  cases hany : h.any (fun p => p.1 == k) with
  | true =>
    rw [if_pos rfl]
    unfold keysNodup at *
    rw [keys_map_update]
    exact hn
  | false =>
    rw [if_neg Bool.false_ne_true]
    unfold keysNodup at *
    rw [List.map_append]
    have hk : k ∉ h.map Prod.fst := by
      intro hmem
      rcases List.mem_map.mp hmem with ⟨p, hp, hpk⟩
      have : (p.1 == k) = true := by rw [hpk]; simp
      have hfalse := List.any_eq_false.mp hany p hp
      rw [this] at hfalse
      exact absurd hfalse (by simp)
    simp [List.nodup_append, hn, hk]

theorem keysNodup_hmerge {α : Type} (a b : List (String × α)) (hn : keysNodup a) :
    keysNodup (hmerge a b) := by
  induction b generalizing a with
  | nil => exact hn
  | cons p rest ih => exact ih _ (keysNodup_hset p.1 p.2 hn)

theorem countKey_map_update {α : Type} (h : List (String × α)) (k : String) (v : α) :
    countKey (h.map (fun p => if p.1 == k then (k, v) else p)) k = countKey h k := by
  unfold countKey
  rw [← List.countP_eq_length_filter, ← List.countP_eq_length_filter, List.countP_map]
  refine List.countP_congr ?_
  intro p hp
  cases hpk : (p.1 == k) with
  | true =>
    have hp1 : p.1 = k := by simpa using hpk
    simp [Function.comp, hpk, hp1]
  | false => simp [Function.comp, hpk]

theorem countKey_eq_zero_of_not_any {α : Type} {h : List (String × α)} {k : String}
    (hna : h.any (fun p => p.1 == k) = false) : countKey h k = 0 := by
  induction h with
  | nil => rfl
  | cons p rest ih =>
    simp only [List.any_cons, Bool.or_eq_false_iff] at hna
    unfold countKey at *
    simp [List.filter_cons, hna.1, ih hna.2]

theorem countKey_eq_one_of_nodup {α : Type} {h : List (String × α)} {k : String}
    (hn : keysNodup h) (hany : h.any (fun p => p.1 == k) = true) : countKey h k = 1 := by
  induction h with
  | nil => simp at hany
  | cons p rest ih =>
    unfold keysNodup at hn
    rw [List.map_cons, List.nodup_cons] at hn
    cases hpk : (p.1 == k) with
    | true =>
      have hp1 : p.1 = k := by simpa using hpk
      have hrest0 : rest.any (fun p => p.1 == k) = false := by
        cases hr : rest.any (fun p => p.1 == k) with
        | false => rfl
        | true =>
          rcases List.any_eq_true.mp hr with ⟨x, hx, hxk⟩
          have hx1 : x.1 = k := by simpa using hxk
          exact absurd (List.mem_map.mpr ⟨x, hx, by rw [hx1, hp1]⟩) hn.1
      unfold countKey
      rw [List.filter_cons, if_pos (by rw [hpk])]
      have h0 := countKey_eq_zero_of_not_any hrest0
      unfold countKey at h0
      simp [h0]
    | false =>
      have hrest : rest.any (fun p => p.1 == k) = true := by
        rw [List.any_cons, Bool.or_eq_true] at hany
        rcases hany with h1 | h1
        · rw [h1] at hpk; exact absurd hpk (by simp)
        · exact h1
      unfold countKey at *
      rw [List.filter_cons, if_neg (by rw [hpk]; exact Bool.false_ne_true)]
      exact ih hn.2 hrest

theorem countKey_hset_self {α : Type} {h : List (String × α)} (k : String) (v : α)
    (hn : keysNodup h) : countKey (hset h k v) k = 1 := by
  unfold hset
  cases hany : h.any (fun p => p.1 == k) with
  | true =>
    rw [if_pos rfl, countKey_map_update]
    exact countKey_eq_one_of_nodup hn hany
  | false =>
    rw [if_neg Bool.false_ne_true]
    unfold countKey
    rw [List.filter_append]
    have h0 := countKey_eq_zero_of_not_any hany
    unfold countKey at h0
    simp [h0]

theorem alookup_addEntry_ne {name : String} (data : List (String × FieldValue))
    (nv : String × String) (hne : name ≠ nv.1) :
    alookup (addEntry data nv) name = alookup data name := by
  unfold addEntry
  have hsing : alookup [(nv.1, FieldValue.scalar nv.2)] name = none := by
    simp [alookup, Ne.symm hne]
  cases hd : alookup data nv.1 with
  | none => rw [alookup_append_of_none data hsing]
  | some fv =>
    cases fv with
    | scalar v0 => exact alookup_hset_ne data _ hne
    | seq xs => exact alookup_hset_ne data _ hne

theorem alookup_addEntry_self (data : List (String × FieldValue)) (nv : String × String) :
    alookup (addEntry data nv) nv.1 = some (entryStep (alookup data nv.1) nv.2) := by
  unfold addEntry
  cases hd : alookup data nv.1 with
  | none =>
    have hsing : alookup [(nv.1, FieldValue.scalar nv.2)] nv.1 = some (FieldValue.scalar nv.2) := by
      simp [alookup]
    rw [alookup_append_of_some data hsing]
    rfl
  | some fv =>
    cases fv with
    | scalar v0 =>
      rw [alookup_hset_self]
      rfl
    | seq xs =>
      rw [alookup_hset_self]
      rfl

theorem alookup_walk (entries : List (String × String)) :
    ∀ (data : List (String × FieldValue)) (name : String),
      alookup (entries.foldl addEntry data) name =
        combine (alookup data name) (valsOf entries name) := by
  induction entries with
  | nil => intro data name; rfl
  | cons e rest ih =>
    intro data name
    rw [List.foldl_cons]
    rw [ih (addEntry data e) name]
    cases hn : (e.1 == name) with
    | true =>
      have he1 : e.1 = name := by simpa using hn
      have hv : valsOf (e :: rest) name = e.2 :: valsOf rest name := by
        unfold valsOf
        rw [List.filter_cons, if_pos (by rw [hn]), List.map_cons]
      rw [hv]
      have hself := alookup_addEntry_self data e
      rw [he1] at hself
      rw [hself]
      rfl
    | false =>
      have hne : name ≠ e.1 := by
        intro he; rw [he] at hn; simp at hn
      have hv : valsOf (e :: rest) name = valsOf rest name := by
        unfold valsOf
        rw [List.filter_cons, if_neg (by rw [hn]; exact Bool.false_ne_true)]
      rw [hv, alookup_addEntry_ne data e hne]

theorem combine_seq (vs : List String) :
    ∀ xs : List String, combine (some (FieldValue.seq xs)) vs =
      some (FieldValue.seq (xs ++ vs)) := by
  induction vs with
  | nil => intro xs; simp [combine]
  | cons v rest ih =>
    intro xs
    unfold combine entryStep
    rw [ih (xs ++ [v])]
    simp

theorem combine_none_shape (vs : List String) : combine none vs = shape vs := by
  cases vs with
  | nil => rfl
  | cons v1 rest =>
    cases rest with
    | nil => rfl
    | cons v2 rest2 =>
      show combine (some (FieldValue.scalar v1)) (v2 :: rest2) = _
      unfold combine entryStep
      rw [combine_seq rest2 [v1, v2]]
      rfl

theorem selStep_of_empty_sel (data : List (String × FieldValue)) {s : String × List String}
    (hz : s.2.length = 0) : selStep data s = data := by
  unfold selStep
  cases hs : (s.1 == "") with
  | true => rw [if_pos rfl]
  | false =>
    rw [if_neg Bool.false_ne_true, hz]
    simp

theorem alookup_selStep_ne {name : String} (data : List (String × FieldValue))
    (s : String × List String) (hne : name ≠ s.1) :
    alookup (selStep data s) name = alookup data name := by
  unfold selStep
  cases hs : (s.1 == "") with
  | true => rw [if_pos rfl]
  | false =>
    rw [if_neg Bool.false_ne_true]
    by_cases hlen : 0 < s.2.length
    · rw [if_pos hlen]
      exact alookup_hset_ne data _ hne
    · rw [if_neg hlen]

theorem alookup_selStep_self {name : String} (data : List (String × FieldValue))
    (s : String × List String) (hname : s.1 = name) (hnz : name ≠ "")
    (hlen : 0 < s.2.length) :
    alookup (selStep data s) name = shaped s.2 := by
  unfold selStep
  have hs : (s.1 == "") = false := by
    simp [hname, hnz]
  rw [if_neg (by rw [hs]; exact Bool.false_ne_true), if_pos hlen, hname, alookup_hset_self]
  rfl

theorem lastSel_cons_of_some {rest : List (String × List String)} {name : String}
    {vs : List String} (s : String × List String) (hr : lastSel rest name = some vs) :
    lastSel (s :: rest) name = some vs := by
  simp only [lastSel, hr]

theorem lastSel_cons_of_none {rest : List (String × List String)} {name : String}
    (s : String × List String) (hr : lastSel rest name = none) :
    lastSel (s :: rest) name =
      if s.1 == name && decide (0 < s.2.length) then some s.2 else none := by
  simp only [lastSel, hr]

theorem alookup_selFold (selects : List (String × List String)) :
    ∀ (data : List (String × FieldValue)) (name : String), name ≠ "" →
      alookup (selects.foldl selStep data) name =
        match lastSel selects name with
        | some vs => shaped vs
        | none => alookup data name := by
  induction selects with
  | nil => intro data name _; rfl
  | cons s rest ih =>
    intro data name hnz
    rw [List.foldl_cons, ih (selStep data s) name hnz]
    cases hl : lastSel rest name with
    | some vs => rw [lastSel_cons_of_some s hl]
    | none =>
      rw [lastSel_cons_of_none s hl]
      cases hcond : (s.1 == name && decide (0 < s.2.length)) with
      | true =>
        rw [if_pos rfl]
        rw [Bool.and_eq_true] at hcond
        have hname : s.1 = name := by simpa using hcond.1
        have hlen : 0 < s.2.length := by simpa using hcond.2
        exact alookup_selStep_self data s hname hnz hlen
      | false =>
        rw [if_neg Bool.false_ne_true]
        cases ha : (s.1 == name) with
        | false =>
          have hne : name ≠ s.1 := by
            intro he; rw [he] at ha; simp at ha
          exact alookup_selStep_ne data s hne
        | true =>
          have hz : s.2.length = 0 := by
            cases hd2 : decide (0 < s.2.length) with
            | true => rw [ha, hd2] at hcond; simp at hcond
            | false =>
              have := of_decide_eq_false hd2
              omega
          rw [selStep_of_empty_sel data hz]

theorem alookup_eq_none_of_all_bne {α : Type} {l : List (String × α)} {k : String}
    (hall : l.all (fun p => p.1 != k) = true) : alookup l k = none := by
  induction l with
  | nil => rfl
  | cons p rest ih =>
    rw [List.all_cons, Bool.and_eq_true] at hall
    rw [alookup_cons_of_none p (ih hall.2)]
    have hne : p.1 ≠ k := by simpa using hall.1
    exact if_neg (by simp [hne])

theorem buildCall_headers (c : ClientState) (e m : String) (body : JsValue)
    (ch : List (String × String)) :
    (buildCall c e m body ch).headers = finalHeadersOf c ch := rfl

theorem buildCall_body_eq (c : ClientState) (e m : String) (body : JsValue)
    (ch : List (String × String)) :
    (buildCall c e m body ch).body =
      if truthy body && m != "GET" && m != "HEAD" then
        if alookup (finalHeadersOf c ch) "Content-Type" == some "application/json" then
          some (JsValue.vStr (jsonStringify body))
        else some body
      else none := rfl

theorem semantqConfig_body (m : String) (body : JsValue) (opts : WOptions) :
    (semantqConfig m body opts).body =
      if jsToUpper m == "POST" || jsToUpper m == "PUT" || jsToUpper m == "PATCH" then
        some (JsValue.vStr (jsonStringify body))
      else opts.bodySpread := rfl

theorem finalHeadersOf_token {c : ClientState} (ch : List (String × String))
    (h : tokenTruthy c.token = true) :
    finalHeadersOf c ch =
      hset (hmerge c.defaultHeaders ch) "Authorization" ("Bearer " ++ c.token.getD "") := by
  unfold finalHeadersOf
  rw [if_pos h]

theorem finalHeadersOf_no_token {c : ClientState} (ch : List (String × String))
    (h : tokenTruthy c.token = false) :
    finalHeadersOf c ch = hmerge c.defaultHeaders ch := by
  unfold finalHeadersOf
  rw [if_neg (by rw [h]; exact Bool.false_ne_true)]

theorem setToken_mkClient_token (bu : String) (u : List (String × String)) (lo : Option Bool)
    (t : Option String) : (setToken (mkClient bu u lo) t).token = t := rfl

theorem setToken_mkClient_defaults (bu : String) (u : List (String × String)) (lo : Option Bool)
    (t : Option String) :
    (setToken (mkClient bu u lo) t).defaultHeaders = hmerge builtinHeaders u := rfl

theorem alookup_hmerge_cascade (u ch : List (String × String)) (name : String) :
    alookup (hmerge (hmerge builtinHeaders u) ch) name = mergeSpec u ch name := by
  unfold mergeSpec
  cases hch : alookup ch name with
  | some v => rw [alookup_hmerge_of_some _ hch]
  | none =>
    rw [alookup_hmerge_of_none _ hch]
    cases hu : alookup u name with
    | some v => rw [alookup_hmerge_of_some _ hu]
    | none => rw [alookup_hmerge_of_none _ hu]

theorem respText_snd (r : FetchResponse) (d : Bool) : (respText r d).2 = true := by
  unfold respText
  cases d with
  | true => rfl
  | false =>
    cases hr : r.readable with
    | true => simp [hr]
    | false => simp [hr]

theorem respJson_snd (r : FetchResponse) (d : Bool) : (respJson r d).2 = true := by
  unfold respJson
  cases hrt : respText r d with
  | mk res d2 =>
    have h2 : d2 = true := by
      have h := respText_snd r d
      rw [hrt] at h
      exact h
    cases res with
    | ok raw =>
      cases hbj : r.bodyJson with
      | some v => simp [h2]
      | none => simp [h2]
    | error e => simp [h2]

theorem decodeFirst_snd (r : FetchResponse) : (decodeFirst r).2 = true := by
  unfold decodeFirst
  cases hct : ctIncludesJson r.contentType with
  | true =>
    rw [if_pos rfl]
    exact respJson_snd r false
  | false =>
    rw [if_neg Bool.false_ne_true]
    cases hrt : respText r false with
    | mk res d =>
      have h2 : d = true := by
        have h := respText_snd r false
        rw [hrt] at h
        exact h
      cases res with
      | ok s => simp [h2]
      | error e => simp [h2]

theorem decodeBody_no_decodeError (r : FetchResponse) (s : String) :
    ¬ decodeBody r = Except.error (ReqError.decodeError s) := by
  intro hcontra
  unfold decodeBody at hcontra
  cases hfirst : decodeFirst r with
  | mk res d2 =>
    rw [hfirst] at hcontra
    have h2 : d2 = true := by
      have h := decodeFirst_snd r
      rw [hfirst] at h
      exact h
    cases res with
    | ok v => simp at hcontra
    | error e =>
      rw [h2] at hcontra
      simp [respText] at hcontra

/-- C1 counterexample: in the semantqQL.js variant (cited by the claim), a
POST whose body argument is null still gets a serialized body attached —
`JSON.stringify(null)`, the string "null" — contradicting the claim that a
body is attached only when the body argument is non-null. -/
theorem claim1_counterexample :
    (semantqConfig "POST" JsValue.vNull {}).body = some (JsValue.vStr "null") ∧
    ¬ (semantqConfig "POST" JsValue.vNull {}).body = none := by
  decide

/-- C1 (amended): in the final variant (src/unnamed/part_000) a body is
attached only when it is truthy — hence non-null — and the method is neither
GET nor HEAD, and for GET and HEAD no body is ever attached; the
semantqQL.js variant instead always serializes the body argument for
POST/PUT/PATCH, even when it is null. -/
theorem claim1_main :
    (∀ (c : ClientState) (e m : String) (body : JsValue) (ch : List (String × String)),
      (buildCall c e m body ch).body.isSome = true →
      truthy body = true ∧ m ≠ "GET" ∧ m ≠ "HEAD") ∧
    (∀ (c : ClientState) (e m : String) (body : JsValue) (ch : List (String × String)),
      m = "GET" ∨ m = "HEAD" → (buildCall c e m body ch).body = none) ∧
    (∀ (m : String) (body : JsValue) (opts : WOptions),
      (jsToUpper m == "POST" || jsToUpper m == "PUT" || jsToUpper m == "PATCH") = true →
      (semantqConfig m body opts).body = some (JsValue.vStr (jsonStringify body))) := by
  refine ⟨?_, ?_, ?_⟩
  · intro c e m body ch h
    rw [buildCall_body_eq] at h
    cases hcond : (truthy body && m != "GET" && m != "HEAD") with
    | false => rw [hcond] at h; simp at h
    | true =>
      rw [Bool.and_eq_true, Bool.and_eq_true] at hcond
      refine ⟨hcond.1.1, ?_, ?_⟩
      · simpa using hcond.1.2
      · simpa using hcond.2
  · intro c e m body ch h
    rw [buildCall_body_eq]
    rcases h with h | h <;> subst h <;> simp
  · intro m body opts h
    rw [semantqConfig_body, if_pos h]

/-- C1 witness: a truthy POST body in the final variant, a GET with a body
argument attaching nothing, and the semantqQL POST serialization. -/
theorem claim1_witness :
    (truthy (JsValue.vObj [("a", JsValue.vNum 1)]) = true ∧ "POST" ≠ "GET" ∧ "POST" ≠ "HEAD") ∧
    (buildCall (mkClient "h" [] none) "/x" "GET" (JsValue.vObj [("a", JsValue.vNum 1)]) []).body
      = none ∧
    (semantqConfig "POST" (JsValue.vObj [("a", JsValue.vNum 1)]) {}).body
      = some (JsValue.vStr (jsonStringify (JsValue.vObj [("a", JsValue.vNum 1)]))) :=
  ⟨claim1_main.1 (mkClient "h" [] none) "/x" "POST" (JsValue.vObj [("a", JsValue.vNum 1)]) []
      (by decide),
   claim1_main.2.1 (mkClient "h" [] none) "/x" "GET" (JsValue.vObj [("a", JsValue.vNum 1)]) []
      (Or.inl rfl),
   claim1_main.2.2 "POST" (JsValue.vObj [("a", JsValue.vNum 1)]) {} (by decide)⟩

/-- C2 counterexample: a POST with the non-null but falsy body "" under the
default application/json Content-Type attaches no body at all — the
transport receives neither the JSON serialization of the body nor the body
itself, refuting the claim for non-null falsy bodies. -/
theorem claim2_counterexample :
    JsValue.vStr "" ≠ JsValue.vNull ∧
    alookup (buildCall (mkClient "h" [] none) "/x" "POST" (JsValue.vStr "") []).headers
      "Content-Type" = some "application/json" ∧
    (buildCall (mkClient "h" [] none) "/x" "POST" (JsValue.vStr "") []).body = none ∧
    ¬ (buildCall (mkClient "h" [] none) "/x" "POST" (JsValue.vStr "") []).body
      = some (JsValue.vStr (jsonStringify (JsValue.vStr ""))) := by
  decide

/-- C2 (amended): for a truthy body and a method outside GET and HEAD, the
final variant sends exactly the JSON serialization of the body when the
effective merged Content-Type equals application/json, and the body
unmodified otherwise. -/
theorem claim2_main (c : ClientState) (e m : String) (body : JsValue)
    (ch : List (String × String)) (hb : truthy body = true) (hg : m ≠ "GET")
    (hh : m ≠ "HEAD") :
    (alookup (buildCall c e m body ch).headers "Content-Type" = some "application/json" →
      (buildCall c e m body ch).body = some (JsValue.vStr (jsonStringify body))) ∧
    (alookup (buildCall c e m body ch).headers "Content-Type" ≠ some "application/json" →
      (buildCall c e m body ch).body = some body) := by
  have hcond : (truthy body && m != "GET" && m != "HEAD") = true := by
    rw [Bool.and_eq_true, Bool.and_eq_true]
    refine ⟨⟨hb, ?_⟩, ?_⟩ <;> simpa
  constructor
  · intro hct
    rw [buildCall_headers] at hct
    have hbeq : (alookup (finalHeadersOf c ch) "Content-Type" == some "application/json")
        = true := by
      rw [hct]
      simp
    rw [buildCall_body_eq, if_pos hcond, if_pos hbeq]
  · intro hct
    rw [buildCall_headers] at hct
    have hbeq : (alookup (finalHeadersOf c ch) "Content-Type" == some "application/json")
        = false := by
      cases hx : (alookup (finalHeadersOf c ch) "Content-Type" == some "application/json") with
      | false => rfl
      | true => exact absurd (by simpa using hx) hct
    rw [buildCall_body_eq, if_pos hcond, if_neg (by rw [hbeq]; exact Bool.false_ne_true)]

/-- C2 witness: a JSON-serialized object body and a pass-through body under
an overridden Content-Type. -/
theorem claim2_witness :
    (buildCall (mkClient "h" [] none) "/x" "POST" (JsValue.vObj [("a", JsValue.vNum 1)]) []).body
      = some (JsValue.vStr (jsonStringify (JsValue.vObj [("a", JsValue.vNum 1)]))) ∧
    (buildCall (mkClient "h" [] none) "/x" "POST" (JsValue.vStr "raw")
      [("Content-Type", "text/plain")]).body = some (JsValue.vStr "raw") :=
  ⟨(claim2_main (mkClient "h" [] none) "/x" "POST" (JsValue.vObj [("a", JsValue.vNum 1)]) []
      (by decide) (by decide) (by decide)).1 (by decide),
   (claim2_main (mkClient "h" [] none) "/x" "POST" (JsValue.vStr "raw")
      [("Content-Type", "text/plain")] (by decide) (by decide) (by decide)).2 (by decide)⟩

/-- C3 counterexample: with a token set, the Authorization assignment runs
after the per-call headers are spread, so a per-call Authorization header is
overridden by the bearer token — not the other way round, as the claim
states. -/
theorem claim3_counterexample :
    alookup (buildCall (setToken (mkClient "h" [] none) (some "t")) "/x" "GET" JsValue.vNull
      [("Authorization", "X")]).headers "Authorization" = some "Bearer t" ∧
    (some "Bearer t" : Option String) ≠ some "X" := by
  decide

/-- C3 (amended): the headers sent are the deterministic later-wins merge of
the built-in default, the instance-level defaults and the per-call headers —
in that order — after which, when a token is set, the Authorization header
is assigned last and overrides even a per-call Authorization; every name
other than a token-set Authorization resolves per-call first, then instance
defaults, then the built-in default. -/
theorem claim3_main (bu : String) (u : List (String × String)) (lo : Option Bool)
    (tok : Option String) (e m : String) (body : JsValue) (ch : List (String × String)) :
    (tokenTruthy tok = true →
      alookup (buildCall (setToken (mkClient bu u lo) tok) e m body ch).headers "Authorization"
        = some ("Bearer " ++ tok.getD "")) ∧
    (∀ name, (tokenTruthy tok = true → name ≠ "Authorization") →
      alookup (buildCall (setToken (mkClient bu u lo) tok) e m body ch).headers name
        = mergeSpec u ch name) := by
  constructor
  · intro htok
    rw [buildCall_headers, finalHeadersOf_token ch (by rw [setToken_mkClient_token]; exact htok),
      setToken_mkClient_token, alookup_hset_self]
  · intro name hname
    cases htok : tokenTruthy tok with
    | true =>
      have hne := hname htok
      rw [buildCall_headers, finalHeadersOf_token ch (by rw [setToken_mkClient_token]; exact htok),
        alookup_hset_ne _ _ hne, setToken_mkClient_defaults, alookup_hmerge_cascade]
    | false =>
      rw [buildCall_headers,
        finalHeadersOf_no_token ch (by rw [setToken_mkClient_token]; exact htok),
        setToken_mkClient_defaults, alookup_hmerge_cascade]

/-- C3 witness: a token-set Authorization and the cascade for another name. -/
theorem claim3_witness :
    alookup (buildCall (setToken (mkClient "h" [("X-A", "ia")] none) (some "t")) "/x" "GET"
      JsValue.vNull [("X-A", "ca")]).headers "Authorization"
      = some ("Bearer " ++ (some "t" : Option String).getD "") ∧
    alookup (buildCall (setToken (mkClient "h" [("X-A", "ia")] none) (some "t")) "/x" "GET"
      JsValue.vNull [("X-A", "ca")]).headers "X-A"
      = mergeSpec [("X-A", "ia")] [("X-A", "ca")] "X-A" :=
  ⟨(claim3_main "h" [("X-A", "ia")] none (some "t") "/x" "GET" JsValue.vNull
      [("X-A", "ca")]).1 (by decide),
   (claim3_main "h" [("X-A", "ia")] none (some "t") "/x" "GET" JsValue.vNull
      [("X-A", "ca")]).2 "X-A" (fun _ => by decide)⟩

/-- C4 counterexample: the empty string is a non-null token, yet the code's
truthiness test `if (this.token)` treats it as falsy, so no Authorization
header is sent after setToken(""). -/
theorem claim4_counterexample :
    alookup (buildCall (setToken (mkClient "h" [] none) (some "")) "/x" "GET" JsValue.vNull
      []).headers "Authorization" = none ∧
    (some "" : Option String) ≠ none := by
  decide

/-- C4 (amended): after setToken with a non-null, non-empty token the header
"Authorization: Bearer t" is sent exactly once on every subsequent request;
after setToken(null) no token-derived Authorization is added, so when
neither the instance defaults nor the per-call headers carry one, none is
sent. -/
theorem claim4_main (bu : String) (u : List (String × String)) (lo : Option Bool)
    (e m : String) (body : JsValue) (ch : List (String × String)) (t : String) :
    (t ≠ "" →
      alookup (buildCall (setToken (mkClient bu u lo) (some t)) e m body ch).headers
        "Authorization" = some ("Bearer " ++ t) ∧
      countKey (buildCall (setToken (mkClient bu u lo) (some t)) e m body ch).headers
        "Authorization" = 1) ∧
    (alookup u "Authorization" = none → alookup ch "Authorization" = none →
      alookup (buildCall (setToken (mkClient bu u lo) none) e m body ch).headers
        "Authorization" = none) := by
  constructor
  · intro ht
    have htok : tokenTruthy (setToken (mkClient bu u lo) (some t)).token = true := by
      rw [setToken_mkClient_token]
      simpa [tokenTruthy] using ht
    constructor
    · rw [buildCall_headers, finalHeadersOf_token ch htok, setToken_mkClient_token,
        alookup_hset_self]
      rfl
    · rw [buildCall_headers, finalHeadersOf_token ch htok]
      have hnodup : keysNodup
          (hmerge (setToken (mkClient bu u lo) (some t)).defaultHeaders ch) := by
        rw [setToken_mkClient_defaults]
        refine keysNodup_hmerge _ ch (keysNodup_hmerge _ u ?_)
        simp [keysNodup, builtinHeaders]
      exact countKey_hset_self _ _ hnodup
  · intro hu hch
    have htok : tokenTruthy (setToken (mkClient bu u lo) none).token = false := by
      rw [setToken_mkClient_token]
      rfl
    rw [buildCall_headers, finalHeadersOf_no_token ch htok, setToken_mkClient_defaults,
      alookup_hmerge_of_none _ hch, alookup_hmerge_of_none _ hu]
    decide

/-- C4 witness: the token "t" sent exactly once, and no Authorization after
clearing the token. -/
theorem claim4_witness :
    (alookup (buildCall (setToken (mkClient "h" [] none) (some "t")) "/x" "GET" JsValue.vNull
      []).headers "Authorization" = some ("Bearer " ++ "t") ∧
     countKey (buildCall (setToken (mkClient "h" [] none) (some "t")) "/x" "GET" JsValue.vNull
      []).headers "Authorization" = 1) ∧
    alookup (buildCall (setToken (mkClient "h" [] none) none) "/x" "GET" JsValue.vNull
      []).headers "Authorization" = none :=
  ⟨(claim4_main "h" [] none "/x" "GET" JsValue.vNull [] "t").1 (by decide),
   (claim4_main "h" [] none "/x" "GET" JsValue.vNull [] "t").2 (by decide) (by decide)⟩

/-- C5 counterexample: a 200 response whose JSON body carries a top-level
_status key decodes successfully, but the flat-merge spreads the body after
the reserved keys, so the body's value overwrites them: the returned
_status is 999, not the HTTP status 200. -/
theorem claim5_counterexample :
    decodeBody respStatusClash = Except.ok (JsValue.vObj [("_status", JsValue.vNum 999)]) ∧
    respStatusClash.status = 200 ∧
    resultField (handleResponse respStatusClash) "_status" = some (JsValue.vNum 999) ∧
    ¬ resultField (handleResponse respStatusClash) "_status" = some (JsValue.vNum 200) := by
  decide

/-- C5 (amended): under the throwing contract every successfully decoded
response — HTTP error statuses included — resolves with the flat-merged
object whose _status and _ok reflect the transport, provided the decoded
body has no top-level _status or _ok keys of its own (which would otherwise
overwrite them); the body's fields are all present; and a rejection happens
only on a transport failure or a decode failure. -/
theorem claim5_main :
    (∀ (r : FetchResponse) (data : JsValue), decodeBody r = Except.ok data →
      (jsSpread data).all (fun p => p.1 != "_status" && p.1 != "_ok") = true →
      resolves (handleResponse r) = true ∧
      resultField (handleResponse r) "_status" = some (JsValue.vNum r.status) ∧
      resultField (handleResponse r) "_ok" = some (JsValue.vBool r.ok) ∧
      (∀ k v, alookup (jsSpread data) k = some v →
        resultField (handleResponse r) k = some v)) ∧
    (∀ (c : ClientState) (e m : String) (b : JsValue) (ch : List (String × String))
      (f : TransportCall → FetchOutcome) (msg : String),
      f (buildCall c e m b ch) = FetchOutcome.networkFailure msg →
      request c e m b ch f = Except.error (ReqError.networkError msg)) ∧
    (∀ (c : ClientState) (e m : String) (b : JsValue) (ch : List (String × String))
      (f : TransportCall → FetchOutcome) (err : ReqError) (r2 : FetchResponse),
      request c e m b ch f = Except.error err →
      f (buildCall c e m b ch) = FetchOutcome.success r2 →
      decodeBody r2 = Except.error err) := by
  refine ⟨?_, ?_, ?_⟩
  · intro r data hdec hall
    have hres : handleResponse r = Except.ok (JsValue.vObj
        (("_status", JsValue.vNum r.status) :: ("_ok", JsValue.vBool r.ok)
          :: jsSpread data)) := by
      unfold handleResponse
      rw [hdec]
    have hS : alookup (jsSpread data) "_status" = none := by
      refine alookup_eq_none_of_all_bne ?_
      rw [List.all_eq_true] at hall ⊢
      intro x hx
      have hx2 := hall x hx
      rw [Bool.and_eq_true] at hx2
      exact hx2.1
    have hO : alookup (jsSpread data) "_ok" = none := by
      refine alookup_eq_none_of_all_bne ?_
      rw [List.all_eq_true] at hall ⊢
      intro x hx
      have hx2 := hall x hx
      rw [Bool.and_eq_true] at hx2
      exact hx2.2
    refine ⟨?_, ?_, ?_, ?_⟩
    · rw [hres]; rfl
    · unfold resultField
      rw [hres]
      show alookup (("_status", JsValue.vNum r.status) :: ("_ok", JsValue.vBool r.ok)
        :: jsSpread data) "_status" = some (JsValue.vNum r.status)
      have hOS : alookup (("_ok", JsValue.vBool r.ok) :: jsSpread data) "_status" = none := by
        rw [alookup_cons_of_none _ hS]
        simp
      rw [alookup_cons_of_none _ hOS]
      simp
    · unfold resultField
      rw [hres]
      show alookup (("_status", JsValue.vNum r.status) :: ("_ok", JsValue.vBool r.ok)
        :: jsSpread data) "_ok" = some (JsValue.vBool r.ok)
      have hOO : alookup (("_ok", JsValue.vBool r.ok) :: jsSpread data) "_ok"
          = some (JsValue.vBool r.ok) := by
        rw [alookup_cons_of_none _ hO]
        simp
      exact alookup_cons_of_some _ hOO
    · intro k v hk
      unfold resultField
      rw [hres]
      exact alookup_cons_of_some _ (alookup_cons_of_some _ hk)
  · intro c e m b ch f msg hf
    unfold request
    simp only [hf]
  · intro c e m b ch f err r2 hreq hf
    unfold request at hreq
    simp only [hf] at hreq
    unfold handleResponse at hreq
    cases hd : decodeBody r2 with
    | error e2 =>
      rw [hd] at hreq
      exact hreq
    | ok d =>
      rw [hd] at hreq
      exact absurd hreq (by simp)

/-- C5 witness: the spec's 404 scenario resolves with _status 404, _ok false
and the body's message field, and a network failure rejects with the
transport error. -/
theorem claim5_witness :
    (resolves (handleResponse respNotFound) = true ∧
     resultField (handleResponse respNotFound) "_status"
       = some (JsValue.vNum respNotFound.status) ∧
     resultField (handleResponse respNotFound) "_ok" = some (JsValue.vBool respNotFound.ok) ∧
     (∀ k v, alookup (jsSpread (JsValue.vObj [("message", JsValue.vStr "not found")])) k
        = some v → resultField (handleResponse respNotFound) k = some v)) ∧
    request (mkClient "h" [] none) "/x" "GET" JsValue.vNull []
      (fun _ => FetchOutcome.networkFailure "down")
      = Except.error (ReqError.networkError "down") :=
  ⟨claim5_main.1 respNotFound (JsValue.vObj [("message", JsValue.vStr "not found")])
      (by decide) (by decide),
   claim5_main.2.1 (mkClient "h" [] none) "/x" "GET" JsValue.vNull []
      (fun _ => FetchOutcome.networkFailure "down") "down" rfl⟩

/-- C6: the claim describes the intended ResponseDecodeError carrying the
raw body text, but evaluating the final variant at a response advertising
JSON with a malformed body shows the request rejecting with the
body-already-consumed read error instead: `response.json()` has already
consumed the body stream, so the diagnostic re-read in the catch block
itself rejects and the decode error carrying the raw text is never built. -/
theorem claim6_main :
    request (mkClient "h" [] none) "/x" "GET" JsValue.vNull []
      (fun _ => FetchOutcome.success respMalformed) = Except.error ReqError.bodyAlreadyRead ∧
    decodeBody respMalformed = Except.error ReqError.bodyAlreadyRead ∧
    ¬ decodeBody respMalformed
      = Except.error (ReqError.decodeError respMalformed.bodyText) := by
  decide

/-- C7 counterexample: a non-JSON response with body "plain text" decodes to
the literal string, but the throwing variant's flat-merge spreads that
string into per-character index entries, so the result returned to the
caller is a restructured object, not the literal text. -/
theorem claim7_counterexample :
    decodeBody respPlainText = Except.ok (JsValue.vStr "plain text") ∧
    handleResponse respPlainText = Except.ok (JsValue.vObj
      [("_status", JsValue.vNum 200), ("_ok", JsValue.vBool true),
       ("0", JsValue.vStr "p"), ("1", JsValue.vStr "l"), ("2", JsValue.vStr "a"),
       ("3", JsValue.vStr "i"), ("4", JsValue.vStr "n"), ("5", JsValue.vStr " "),
       ("6", JsValue.vStr "t"), ("7", JsValue.vStr "e"), ("8", JsValue.vStr "x"),
       ("9", JsValue.vStr "t")]) ∧
    ¬ handleResponse respPlainText = Except.ok (JsValue.vStr "plain text") := by
  decide

/-- C7 (amended): for a readable response whose content type does not
indicate JSON, the normalization step decodes exactly the literal body text
as one string; the wrapped contract surfaces that string unchanged in the
result's data field, while the throwing variant's flat-merge spreads it into
per-character index entries of the returned object. -/
theorem claim7_main (r : FetchResponse) (hct : ctIncludesJson r.contentType = false)
    (hr : r.readable = true) :
    decodeBody r = Except.ok (JsValue.vStr r.bodyText) ∧
    handleResponse r = Except.ok (JsValue.vObj (("_status", JsValue.vNum r.status)
      :: ("_ok", JsValue.vBool r.ok) :: jsSpread (JsValue.vStr r.bodyText))) ∧
    (∀ (m : String) (b : JsValue) (opts : WOptions) (f : FetchConfig → FetchOutcome),
      f (buildWConfig m b opts) = FetchOutcome.success r →
      wrappedRequest m b opts f =
        { status := r.status, ok := r.ok, data := some (JsValue.vStr r.bodyText),
          error := none }) := by
  have ht : respText r false = (Except.ok r.bodyText, true) := by
    unfold respText
    rw [if_neg Bool.false_ne_true, if_pos hr]
  have hdec : decodeBody r = Except.ok (JsValue.vStr r.bodyText) := by
    unfold decodeBody decodeFirst
    rw [if_neg (by rw [hct]; exact Bool.false_ne_true), ht]
  refine ⟨hdec, ?_, ?_⟩
  · unfold handleResponse
    rw [hdec]
  · intro m b opts f hf
    have hdw : decodeW r = Except.ok (JsValue.vStr r.bodyText) := by
      unfold decodeW
      rw [if_neg (by rw [hct]; exact Bool.false_ne_true), ht]
    unfold wrappedRequest wrappedTry
    simp only [hf]
    rw [hdw]

/-- C7 witness: the "plain text" response decoded and surfaced by the
wrapped contract. -/
theorem claim7_witness :
    decodeBody respPlainText = Except.ok (JsValue.vStr respPlainText.bodyText) ∧
    wrappedRequest "GET" JsValue.vNull {} (fun _ => FetchOutcome.success respPlainText) =
      { status := respPlainText.status, ok := respPlainText.ok,
        data := some (JsValue.vStr respPlainText.bodyText), error := none } :=
  ⟨(claim7_main respPlainText (by decide) (by decide)).1,
   (claim7_main respPlainText (by decide) (by decide)).2.2 "GET" JsValue.vNull {}
     (fun _ => FetchOutcome.success respPlainText) rfl⟩

/-- C8 counterexample: a non-2xx response under the wrapped contract
resolves with `{status, ok:false, data}` but no error property at all,
refuting the claim that every failure carries `error: message`. -/
theorem claim8_counterexample :
    wrappedRequest "GET" JsValue.vNull {} (fun _ => FetchOutcome.success respNotFound) =
      { status := 404, ok := false,
        data := some (JsValue.vObj [("message", JsValue.vStr "not found")]), error := none } ∧
    (wrappedRequest "GET" JsValue.vNull {} (fun _ => FetchOutcome.success respNotFound)).ok
      = false ∧
    (wrappedRequest "GET" JsValue.vNull {} (fun _ => FetchOutcome.success respNotFound)).error
      = none := by
  decide

/-- C8 (amended): the wrapped contract never rejects; a caught failure
(network or decode) resolves with status 0, ok false, null data and a
populated error message; a delivered response resolves with its status and
ok flag, the decoded data, and no error field — non-2xx included. -/
theorem claim8_main (m : String) (b : JsValue) (opts : WOptions)
    (f : FetchConfig → FetchOutcome) :
    (∀ msg, f (buildWConfig m b opts) = FetchOutcome.networkFailure msg →
      wrappedRequest m b opts f
        = { status := 0, ok := false, data := none, error := some msg }) ∧
    (∀ r e, f (buildWConfig m b opts) = FetchOutcome.success r → decodeW r = Except.error e →
      wrappedRequest m b opts f
        = { status := 0, ok := false, data := none, error := some (errMessage e) }) ∧
    (∀ r d, f (buildWConfig m b opts) = FetchOutcome.success r → decodeW r = Except.ok d →
      wrappedRequest m b opts f
        = { status := r.status, ok := r.ok, data := some d, error := none }) := by
  refine ⟨?_, ?_, ?_⟩
  · intro msg hf
    unfold wrappedRequest wrappedTry
    simp only [hf]
    rfl
  · intro r e hf hd
    unfold wrappedRequest wrappedTry
    simp only [hf]
    rw [hd]
  · intro r d hf hd
    unfold wrappedRequest wrappedTry
    simp only [hf]
    rw [hd]

/-- C8 witness: a network failure resolving to the caught-failure shape and
the 404 response resolving without an error field. -/
theorem claim8_witness :
    wrappedRequest "GET" JsValue.vNull {} (fun _ => FetchOutcome.networkFailure "down") =
      { status := 0, ok := false, data := none, error := some "down" } ∧
    wrappedRequest "GET" JsValue.vNull {} (fun _ => FetchOutcome.success respNotFound) =
      { status := respNotFound.status, ok := respNotFound.ok,
        data := some (JsValue.vObj [("message", JsValue.vStr "not found")]), error := none } :=
  ⟨(claim8_main "GET" JsValue.vNull {} (fun _ => FetchOutcome.networkFailure "down")).1
      "down" rfl,
   (claim8_main "GET" JsValue.vNull {} (fun _ => FetchOutcome.success respNotFound)).2.2
      respNotFound (JsValue.vObj [("message", JsValue.vStr "not found")]) rfl (by decide)⟩

/-- C9 counterexample: a multi-select named colors with zero selected
options contributes nothing, but when another control of the same name
produced an entry, the name is still present in the snapshot — refuting the
claim that the name is absent whenever the multi-select has no selection. -/
theorem claim9_counterexample :
    alookup (captureFormData [("colors", "green")] [("colors", [])]) "colors"
      = some (FieldValue.scalar "green") ∧
    ¬ alookup (captureFormData [("colors", "green")] [("colors", [])]) "colors" = none := by
  decide

/-- C9 (amended): for every non-empty field name, the snapshot holds the
last nonempty multi-select contribution for that name — a bare scalar for
exactly one selected option, the ordered sequence for two or more — and
otherwise the entry-walk result: absent without entries, a scalar for one
entry, the ordered sequence of values for repeated entries; a zero-selected
multi-select contributes nothing (so the name stays absent only when the
entry walk also produced nothing). -/
theorem claim9_main (entries : List (String × String))
    (selects : List (String × List String)) (name : String) (hnz : name ≠ "") :
    alookup (captureFormData entries selects) name =
      match lastSel selects name with
      | some vs => shaped vs
      | none => shape (valsOf entries name) := by
  unfold captureFormData
  rw [alookup_selFold selects (entries.foldl addEntry []) name hnz]
  cases hl : lastSel selects name with
  | some vs => rfl
  | none =>
    rw [alookup_walk entries [] name]
    show combine none (valsOf entries name) = _
    rw [combine_none_shape]

/-- C9 witness: the spec scenario — two entries named tag and a two-option
multi-select named colors. -/
theorem claim9_witness :
    (alookup (captureFormData [("tag", "a"), ("tag", "b"), ("colors", "red"),
        ("colors", "blue")] [("colors", ["red", "blue"])]) "tag"
      = match lastSel [("colors", ["red", "blue"])] "tag" with
        | some vs => shaped vs
        | none => shape (valsOf [("tag", "a"), ("tag", "b"), ("colors", "red"),
            ("colors", "blue")] "tag")) ∧
    (alookup (captureFormData [("tag", "a"), ("tag", "b"), ("colors", "red"),
        ("colors", "blue")] [("colors", ["red", "blue"])]) "colors"
      = match lastSel [("colors", ["red", "blue"])] "colors" with
        | some vs => shaped vs
        | none => shape (valsOf [("tag", "a"), ("tag", "b"), ("colors", "red"),
            ("colors", "blue")] "colors")) :=
  ⟨claim9_main [("tag", "a"), ("tag", "b"), ("colors", "red"), ("colors", "blue")]
      [("colors", ["red", "blue"])] "tag" (by decide),
   claim9_main [("tag", "a"), ("tag", "b"), ("colors", "red"), ("colors", "blue")]
      [("colors", ["red", "blue"])] "colors" (by decide)⟩

/-- C10: the decoded body is spread into the result after the reserved
_status and _ok keys, so a body's own top-level _status or _ok value
overwrites the reserved one and the returned field no longer reflects the
transport-level status or ok flag. -/
theorem claim10_main (r : FetchResponse) (data : JsValue) (vS vO : JsValue)
    (hdec : decodeBody r = Except.ok data) :
    (alookup (jsSpread data) "_status" = some vS →
      resultField (handleResponse r) "_status" = some vS) ∧
    (alookup (jsSpread data) "_ok" = some vO →
      resultField (handleResponse r) "_ok" = some vO) := by
  have hres : handleResponse r = Except.ok (JsValue.vObj
      (("_status", JsValue.vNum r.status) :: ("_ok", JsValue.vBool r.ok)
        :: jsSpread data)) := by
    unfold handleResponse
    rw [hdec]
  constructor
  · intro hS
    unfold resultField
    rw [hres]
    exact alookup_cons_of_some _ (alookup_cons_of_some _ hS)
  · intro hO
    unfold resultField
    rw [hres]
    exact alookup_cons_of_some _ (alookup_cons_of_some _ hO)

/-- C10 witness: a body carrying _status 999 and _ok false overwrites the
transport's 200/true in the returned object. -/
theorem claim10_witness :
    resultField (handleResponse respBothClash) "_status" = some (JsValue.vNum 999) ∧
    resultField (handleResponse respBothClash) "_ok" = some (JsValue.vBool false) :=
  ⟨(claim10_main respBothClash (JsValue.vObj [("_status", JsValue.vNum 999),
      ("_ok", JsValue.vBool false)]) (JsValue.vNum 999) (JsValue.vBool false)
      (by decide)).1 (by decide),
   (claim10_main respBothClash (JsValue.vObj [("_status", JsValue.vNum 999),
      ("_ok", JsValue.vBool false)]) (JsValue.vNum 999) (JsValue.vBool false)
      (by decide)).2 (by decide)⟩
